import Mathlib

/-!
Verification of the Merkle proof engine of this repository
(`src/merkle_proof.py`): RFC 6962 leaf/node hashing, inclusion-proof root
recomputation (`root_from_inclusion_proof`, `verify_inclusion`) and
consistency-proof verification (`verify_consistency`), together with the
bit-decomposition helpers (`decomp_incl_proof`, `inner_proof_size`) and the
hash-chaining loops (`chain_inner`, `chain_inner_right`,
`chain_border_right`).

The embedding is shallow and executable:

* a byte string is a `List Nat` (each entry a byte value);
* a `Hasher` wraps the underlying digest map (`hashlib` hash function) and
  its digest size, and the RFC 6962 domain-separated operations are defined
  over it exactly as the Python class does;
* Python control flow is made explicit: each verification entry point
  returns an element of an outcome type whose constructors record what the
  Python function observably does — returning normally, raising
  `ValueError` (shape or decode errors), raising `RootMismatchError`
  (with both roots hex-encoded, as the exception object stores them),
  printing an invalid-root report and returning early, or terminating the
  process via `exit()`.  Interpolated values inside `ValueError` message
  strings are dropped; the message text kept is the fixed part that
  identifies the raise site.
* `bytes.fromhex` / `binascii.hexlify` are modelled as total functions on
  hex strings and byte lists (`fromhex` returning `none` where CPython
  raises `ValueError`; whitespace tolerance of CPython's parser is not
  modelled, no input below contains whitespace).

Loops become structural recursion carrying the loop counter; the Python
`int` bit primitives (`bit_length`, `bin(..).count("1")`, and
`(n & -n).bit_length() - 1` for counting trailing zeros) are defined by
fuel-indexed structural recursion — fuel `n` always suffices because each
of them halves its argument at every step — so that every definition
evaluates by kernel reduction on concrete inputs.
-/

namespace MerkleProof

/-- Byte strings (and digests) are lists of byte values. -/
abbrev Bytes := List Nat

/-- Hasher class of `merkle_proof.py`: a pluggable hash function.
`hashFun` models `self.hash_func().update(b).digest()` as one digest map
over the full input byte string; `digestSize` models
`self.new().digest_size`. -/
structure Hasher where
  hashFun : Bytes → Bytes
  digestSize : Nat

/-- Model of `Hasher.hash_leaf`: digest of `0x00 || leaf`
(RFC 6962 leaf domain separation, `RFC6962_LEAF_HASH_PREFIX = 0`). -/
def Hasher.hash_leaf (hasher : Hasher) (leaf : Bytes) : Bytes :=
  hasher.hashFun (0 :: leaf)

/-- Model of `Hasher.hash_children`: digest of `0x01 || left || right`
(`RFC6962_NODE_HASH_PREFIX = 1`); the children are never swapped. -/
def Hasher.hash_children (hasher : Hasher) (left right : Bytes) : Bytes :=
  hasher.hashFun (1 :: (left ++ right))

/-- Model of `Hasher.empty_root`: digest of the empty byte string. -/
def Hasher.empty_root (hasher : Hasher) : Bytes :=
  hasher.hashFun []

/-- Model of `Hasher.size`: the digest size in bytes. -/
def Hasher.size (hasher : Hasher) : Nat :=
  hasher.digestSize

/-! ### Python integer bit primitives -/

/-- Fuel-indexed body of `bit_length`: one halving step per unit of fuel. -/
def bit_length_go : Nat → Nat → Nat
  | _, 0 => 0
  | 0, _ + 1 => 0
  | fuel + 1, n + 1 => bit_length_go fuel ((n + 1) / 2) + 1

/-- Python `int.bit_length()`: the number of bits needed to represent `n`
(`0` for `n = 0`).  Fuel `n` suffices since the recursion depth is at most
`log2 n + 1 ≤ n` for `n ≥ 1`. -/
def bit_length (n : Nat) : Nat := bit_length_go n n

/-- Fuel-indexed body of `popcount`. -/
def popcount_go : Nat → Nat → Nat
  | _, 0 => 0
  | 0, _ + 1 => 0
  | fuel + 1, n + 1 => (n + 1) % 2 + popcount_go fuel ((n + 1) / 2)

/-- Python `bin(n).count("1")`: the number of set bits of `n`. -/
def popcount (n : Nat) : Nat := popcount_go n n

/-- Fuel-indexed body of `ntz`. -/
def ntz_go : Nat → Nat → Nat
  | _, 0 => 0
  | 0, _ + 1 => 0
  | fuel + 1, n + 1 =>
    if (n + 1) % 2 = 1 then 0 else ntz_go fuel ((n + 1) / 2) + 1

/-- Number of trailing zero bits: Python `(n & -n).bit_length() - 1` as
`verify_consistency` computes `shift` (only evaluated there at `n > 0`,
where the two agree; this definition returns `0` at `n = 0`). -/
def ntz (n : Nat) : Nat := ntz_go n n

/-! ### Hex encoding and decoding at the string boundary -/

/-- Value of one hex digit character; `bytes.fromhex` accepts both cases. -/
def hexDigitVal? (c : Char) : Option Nat :=
  if '0' ≤ c ∧ c ≤ '9' then some (c.toNat - 48)
  else if 'a' ≤ c ∧ c ≤ 'f' then some (c.toNat - 87)
  else if 'A' ≤ c ∧ c ≤ 'F' then some (c.toNat - 55)
  else none

/-- Model of Python `bytes.fromhex` on a character list: consecutive pairs of
hex digits become bytes; an odd-length tail or a non-hex character is the
`ValueError` case (`none`). -/
def fromhexChars : List Char → Option Bytes
  | [] => some []
  | [_] => none
  | c1 :: c2 :: rest =>
    match hexDigitVal? c1, hexDigitVal? c2, fromhexChars rest with
    | some hi, some lo, some tail => some ((16 * hi + lo) :: tail)
    | _, _, _ => none

/-- Model of Python `bytes.fromhex` on a string. -/
def fromhex (s : String) : Option Bytes := fromhexChars s.data

/-- Lowercase hex digit character for a value below 16. -/
def hexDigitChar (n : Nat) : Char :=
  if n < 10 then Char.ofNat (48 + n) else Char.ofNat (87 + n)

/-- Character list of the lowercase hex encoding of a byte string. -/
def hexlifyChars : Bytes → List Char
  | [] => []
  | b :: rest => hexDigitChar (b / 16) :: hexDigitChar (b % 16) :: hexlifyChars rest

/-- Model of `binascii.hexlify(bytearray(bs))` (as `RootMismatchError`
stores its roots): the lowercase hex encoding of a byte string. -/
def hexlify (bs : Bytes) : String := String.mk (hexlifyChars bs)

/-- Model of the comprehension `[bytes.fromhex(elem) for elem in proof]`:
every element is decoded, the first failure raising `ValueError` (`none`). -/
def fromhex_list : List String → Option (List Bytes)
  | [] => some []
  | s :: rest =>
    match fromhex s, fromhex_list rest with
    | some b, some bs => some (b :: bs)
    | _, _ => none

/-- A byte string whose entries are all genuine byte values. -/
def IsByteList (bs : Bytes) : Prop := ∀ b ∈ bs, b < 256

instance (bs : Bytes) : Decidable (IsByteList bs) := by
  unfold IsByteList; infer_instance

/-! ### The hash-chaining loops -/

/-- Loop of `chain_inner`, carrying the `enumerate` counter `i`: step `i`
combines as `hash_children(seed, h)` when bit `i` of `index` is 0 (the
current subtree is a left child) and as `hash_children(h, seed)` when it
is 1. -/
def chain_inner_go (hasher : Hasher) (seed : Bytes) (proof : List Bytes)
    (index i : Nat) : Bytes :=
  match proof with
  | [] => seed
  | h :: rest =>
    chain_inner_go hasher
      (if (index >>> i) &&& 1 = 0 then hasher.hash_children seed h
       else hasher.hash_children h seed)
      rest index (i + 1)

/-- Model of `chain_inner(hasher, seed, proof, index)`. -/
def chain_inner (hasher : Hasher) (seed : Bytes) (proof : List Bytes)
    (index : Nat) : Bytes :=
  chain_inner_go hasher seed proof index 0

/-- Loop of `chain_inner_right`, carrying the `enumerate` counter `i`:
step `i` combines as `hash_children(h, seed)` when bit `i` of `index` is 1
and leaves the seed unchanged (skipping `h`) otherwise. -/
def chain_inner_right_go (hasher : Hasher) (seed : Bytes) (proof : List Bytes)
    (index i : Nat) : Bytes :=
  match proof with
  | [] => seed
  | h :: rest =>
    chain_inner_right_go hasher
      (if (index >>> i) &&& 1 = 1 then hasher.hash_children h seed else seed)
      rest index (i + 1)

/-- Model of `chain_inner_right(hasher, seed, proof, index)`. -/
def chain_inner_right (hasher : Hasher) (seed : Bytes) (proof : List Bytes)
    (index : Nat) : Bytes :=
  chain_inner_right_go hasher seed proof index 0

/-- Model of `chain_border_right(hasher, seed, proof)`: every proof hash is
combined as `hash_children(h, seed)`. -/
def chain_border_right (hasher : Hasher) (seed : Bytes) (proof : List Bytes) :
    Bytes :=
  match proof with
  | [] => seed
  | h :: rest => chain_border_right hasher (hasher.hash_children h seed) rest

/-! ### Inclusion-proof decomposition and root recomputation -/

/-- Model of `inner_proof_size(index, size) = (index ^ (size - 1)).bit_length()`. -/
def inner_proof_size (index size : Nat) : Nat :=
  bit_length (index ^^^ (size - 1))

/-- Model of `decomp_incl_proof(index, size)`: the `inner` count and the
`border` count `popcount(index >> inner)`. -/
def decomp_incl_proof (index size : Nat) : Nat × Nat :=
  (inner_proof_size index size,
   popcount (index >>> inner_proof_size index size))

/-- Model of `root_from_inclusion_proof(hasher, index, size, leaf_hash,
proof)` over decoded byte strings: `ValueError` becomes `.error` (with the
fixed part of the message), and the recomputed root becomes `.ok`. -/
def root_from_inclusion_proof (hasher : Hasher) (index size : Nat)
    (leaf_hash : Bytes) (proof : List Bytes) : Except String Bytes :=
  if size ≤ index then .error "index is beyond size"
  else if leaf_hash.length ≠ hasher.size then
    .error "leaf_hash has unexpected size"
  else
    let pr := decomp_incl_proof index size
    if proof.length ≠ pr.1 + pr.2 then .error "wrong proof size"
    else
      .ok (chain_border_right hasher
        (chain_inner hasher leaf_hash (proof.take pr.1) index)
        (proof.drop pr.1))

/-- Observable outcome of `verify_inclusion`: normal return after the
success message (`success`), an uncaught `ValueError` from `bytes.fromhex`
(`decodeError`), an uncaught `ValueError` raised by
`root_from_inclusion_proof` (`valueError`), or the mismatch path that
prints a failure message and terminates the process via `exit()`
(`exitCall`). -/
inductive InclusionOutcome where
  | success
  | decodeError
  | valueError (msg : String)
  | exitCall
deriving DecidableEq

/-- Model of `verify_inclusion(hasher, index, size, leaf_hash, proof, root)`
(the `debug` flag only adds prints and is dropped).  The hex decodes run in
source order — proof list, then root, then leaf — and any failure among
them propagates as an uncaught `ValueError`; then
`root_from_inclusion_proof` runs, and finally the recomputed root is
compared with the claimed one: equality returns normally, inequality
prints and calls `exit()`. -/
def verify_inclusion (hasher : Hasher) (index size : Nat) (leaf_hash : String)
    (proof : List String) (root : String) : InclusionOutcome :=
  match fromhex_list proof with
  | none => .decodeError
  | some bytearray_proof =>
    match fromhex root with
    | none => .decodeError
    | some bytearray_root =>
      match fromhex leaf_hash with
      | none => .decodeError
      | some bytearray_leaf =>
        match root_from_inclusion_proof hasher index size bytearray_leaf
            bytearray_proof with
        | .error msg => .valueError msg
        | .ok calc_root =>
          if calc_root = bytearray_root then .success else .exitCall

/-! ### Consistency-proof verification -/

/-- Observable outcome of `verify_consistency`: normal return on success
(`success`); the caught `ValueError` from decoding `root1`/`root2` that
prints an invalid-root report and returns early (`invalidRoots`); an
uncaught `ValueError` from decoding a proof element (`decodeError`); an
uncaught `ValueError` for a shape error (`valueError`, fixed message part);
an uncaught `RootMismatchError` carrying both roots hex-encoded, expected
first, as the exception stores them (`rootMismatch`); or the final-mismatch
path that prints a failure message and terminates the process via `exit()`
(`exitCall`). -/
inductive ConsistencyOutcome where
  | success
  | invalidRoots
  | decodeError
  | valueError (msg : String)
  | rootMismatch (expected_root calculated_root : String)
  | exitCall
deriving DecidableEq

/-- Model of `shift = (size1 & -size1).bit_length() - 1` in
`verify_consistency`. -/
def cons_shift (size1 : Nat) : Nat := ntz size1

/-- Model of the reduced `inner` count (`inner -= shift`) in
`verify_consistency`, for sizes `size1 - 1` and `size2`. -/
def cons_inner (size1 size2 : Nat) : Nat :=
  (decomp_incl_proof (size1 - 1) size2).1 - cons_shift size1

/-- Border count of `verify_consistency`, as `decomp_incl_proof` returns it. -/
def cons_border (size1 size2 : Nat) : Nat :=
  (decomp_incl_proof (size1 - 1) size2).2

/-- Model of `start`: proof consumption starts at 0 when `size1` is exactly
`1 << shift` (a power of two) and at 1 otherwise. -/
def cons_start (size1 : Nat) : Nat :=
  if size1 = 1 <<< cons_shift size1 then 0 else 1

/-- Model of `seed`: `root1` when `size1 == 1 << shift`, else `proof[0]`. -/
def cons_seed (size1 : Nat) (r1 p0 : Bytes) : Bytes :=
  if size1 = 1 <<< cons_shift size1 then r1 else p0

/-- Model of `mask = (size1 - 1) >> shift`. -/
def cons_mask (size1 : Nat) : Nat :=
  (size1 - 1) >>> cons_shift size1

/-- Model of `bytearray_proof = bytearray_proof[start:]`. -/
def cons_tail (size1 : Nat) (bp : List Bytes) : List Bytes :=
  bp.drop (cons_start size1)

/-- Model of `hash1` in `verify_consistency`: the right-only inner chain of
the first `inner` remaining proof hashes over `mask`, then the border
chain of the rest. -/
def cons_hash1 (hasher : Hasher) (size1 size2 : Nat) (bp : List Bytes)
    (p0 r1 : Bytes) : Bytes :=
  chain_border_right hasher
    (chain_inner_right hasher (cons_seed size1 r1 p0)
      ((cons_tail size1 bp).take (cons_inner size1 size2)) (cons_mask size1))
    ((cons_tail size1 bp).drop (cons_inner size1 size2))

/-- Model of `hash2` in `verify_consistency`: the full inner chain (left or
right by the bits of `mask`) of the first `inner` remaining proof hashes,
then the same border chain. -/
def cons_hash2 (hasher : Hasher) (size1 size2 : Nat) (bp : List Bytes)
    (p0 r1 : Bytes) : Bytes :=
  chain_border_right hasher
    (chain_inner hasher (cons_seed size1 r1 p0)
      ((cons_tail size1 bp).take (cons_inner size1 size2)) (cons_mask size1))
    ((cons_tail size1 bp).drop (cons_inner size1 size2))

/-- Lines 80–105 of `merkle_proof.py`: the main path of
`verify_consistency` once the edge cases are passed (`0 < size1 < size2`,
non-empty decoded proof with head `p0`).  The proof length is validated
against `start + inner + border`; then `hash1` is compared with `root1`
(mismatch raising `RootMismatchError`), then `hash2` with `root2`
(mismatch printing and calling `exit()`). -/
def consistency_main (hasher : Hasher) (size1 size2 : Nat) (bp : List Bytes)
    (p0 r1 r2 : Bytes) : ConsistencyOutcome :=
  if bp.length ≠ cons_start size1 + cons_inner size1 size2 + cons_border size1 size2 then
    .valueError "wrong bytearray_proof size"
  else if cons_hash1 hasher size1 size2 bp p0 r1 ≠ r1 then
    .rootMismatch (hexlify r1) (hexlify (cons_hash1 hasher size1 size2 bp p0 r1))
  else if cons_hash2 hasher size1 size2 bp p0 r1 ≠ r2 then .exitCall
  else .success

/-- Lines 64–105 of `merkle_proof.py`: `verify_consistency` after the hex
decodes, over decoded byte strings.  Edge cases in source order:
`size2 < size1` raises; `size1 == size2` requires an empty proof and then
compares the two roots (`verify_match(root1, root2)`, the mismatch storing
`root2` as expected and `root1` as calculated); `size1 == 0` requires an
empty proof and succeeds; an empty proof is then a shape error; otherwise
the main path runs with `p0 = bytearray_proof[0]`. -/
def verify_consistency_core (hasher : Hasher) (size1 size2 : Nat)
    (bp : List Bytes) (r1 r2 : Bytes) : ConsistencyOutcome :=
  if size2 < size1 then .valueError "size2 < size1"
  else if size1 = size2 then
    if bp ≠ [] then .valueError "size1=size2, but bytearray_proof is not empty"
    else if r1 = r2 then .success
    else .rootMismatch (hexlify r2) (hexlify r1)
  else if size1 = 0 then
    if bp ≠ [] then .valueError "expected empty bytearray_proof"
    else .success
  else
    match bp with
    | [] => .valueError "empty bytearray_proof"
    | p0 :: _ => consistency_main hasher size1 size2 bp p0 r1 r2

/-- Model of `verify_consistency(hasher, size1, size2, proof, root1,
root2)` at the hex-string boundary (lines 54–105): `root1` and `root2` are
decoded inside a `try` whose `except` prints an invalid-root report and
returns (`invalidRoots`); the proof elements are then decoded outside any
`try`, a failure propagating as an uncaught `ValueError` (`decodeError`);
the rest is `verify_consistency_core`. -/
def verify_consistency (hasher : Hasher) (size1 size2 : Nat)
    (proof : List String) (root1 root2 : String) : ConsistencyOutcome :=
  match fromhex root1, fromhex root2 with
  | some r1, some r2 =>
    match fromhex_list proof with
    | none => .decodeError
    | some bytearray_proof =>
      verify_consistency_core hasher size1 size2 bytearray_proof r1 r2
  | _, _ => .invalidRoots

/-- Concrete byte-valued hash function used by the closed witnesses and
counterexamples below: a tiny accumulating digest with a one-byte output. -/
def listHash (l : Bytes) : Bytes :=
  [l.foldl (fun a b => (a * 31 + b) % 256) 7]

/-- Concrete one-byte-digest hasher for witnesses. -/
def toyHasher : Hasher := ⟨listHash, 1⟩

/-- Concrete hasher with a declared 32-byte digest size (as SHA-256 has)
whose digest map is irrelevant to the claims it witnesses. -/
def wideHasher : Hasher := ⟨fun l => (List.range 32).map (fun i => (l.sum + i) % 256), 32⟩

/-! ### Helper lemmas -/

/-- Valid hex digits round-trip through encoding. -/
lemma hexDigitVal_hexDigitChar : ∀ n, n < 16 → hexDigitVal? (hexDigitChar n) = some n := by
  decide

/-- Decoding inverts encoding on genuine byte strings (character-list level). -/
lemma fromhexChars_hexlifyChars (bs : Bytes) :
    IsByteList bs → fromhexChars (hexlifyChars bs) = some bs := by
  induction bs with
  | nil => intro _; rfl
  | cons b rest ih =>
    intro hb
    have hb0 : b < 256 := hb b (by simp)
    have hrest : IsByteList rest := fun x hx => hb x (by simp [hx])
    have h1 : hexDigitVal? (hexDigitChar (b / 16)) = some (b / 16) :=
      hexDigitVal_hexDigitChar _ (by omega)
    have h2 : hexDigitVal? (hexDigitChar (b % 16)) = some (b % 16) :=
      hexDigitVal_hexDigitChar _ (by omega)
    simp only [hexlifyChars, fromhexChars, h1, h2, ih hrest]
    have : 16 * (b / 16) + b % 16 = b := by omega
    rw [this]

/-- Decoding inverts encoding on genuine byte strings. -/
lemma fromhex_hexlify (bs : Bytes) (hb : IsByteList bs) :
    fromhex (hexlify bs) = some bs :=
  fromhexChars_hexlifyChars bs hb

/-- Once the three hex decodes succeed, `verify_consistency` is its core over
the decoded byte strings. -/
lemma verify_consistency_decode (hasher : Hasher) (size1 size2 : Nat)
    (proof : List String) (root1 root2 : String) (r1 r2 : Bytes)
    (bp : List Bytes) (h1 : fromhex root1 = some r1)
    (h2 : fromhex root2 = some r2) (h3 : fromhex_list proof = some bp) :
    verify_consistency hasher size1 size2 proof root1 root2 =
      verify_consistency_core hasher size1 size2 bp r1 r2 := by
  simp [verify_consistency, h1, h2, h3]

/-- With `0 < size1 < size2` and a non-empty proof the core takes its main
path. -/
lemma verify_consistency_core_main (hasher : Hasher) (size1 size2 : Nat)
    (p0 : Bytes) (rest : List Bytes) (r1 r2 : Bytes)
    (hpos : 0 < size1) (hlt : size1 < size2) :
    verify_consistency_core hasher size1 size2 (p0 :: rest) r1 r2 =
      consistency_main hasher size1 size2 (p0 :: rest) p0 r1 r2 := by
  have a : ¬ size2 < size1 := by omega
  have b : size1 ≠ size2 := by omega
  have c : size1 ≠ 0 := by omega
  simp [verify_consistency_core, a, b, c]

/-! ### Claim theorems -/

/-- Claim C4: inclusion verification rejects with a shape error exactly when
`index >= size`, or the leaf hash length differs from the digest size, or
the proof length differs from `inner + border` for the decomposition of
`(index, size)`; under the complementary preconditions no shape error is
raised and the hash chaining runs, producing the derived root.  (The
`.error`/`.ok` dichotomy of the embedding records that the error is raised
before any hashing: the chains appear only under `.ok`.) -/
theorem inclusion_shape_error_iff (hasher : Hasher) (index size : Nat)
    (leaf_hash : Bytes) (proof : List Bytes) :
    ((∃ msg, root_from_inclusion_proof hasher index size leaf_hash proof =
        .error msg)
      ↔ (size ≤ index ∨ leaf_hash.length ≠ hasher.size
          ∨ proof.length ≠ (decomp_incl_proof index size).1
              + (decomp_incl_proof index size).2))
    ∧ (root_from_inclusion_proof hasher index size leaf_hash proof =
        .ok (chain_border_right hasher
          (chain_inner hasher leaf_hash
            (proof.take (decomp_incl_proof index size).1) index)
          (proof.drop (decomp_incl_proof index size).1))
      ↔ ¬(size ≤ index ∨ leaf_hash.length ≠ hasher.size
          ∨ proof.length ≠ (decomp_incl_proof index size).1
              + (decomp_incl_proof index size).2)) := by
  by_cases h1 : size ≤ index
  · simp [root_from_inclusion_proof, h1]
  · by_cases h2 : leaf_hash.length = hasher.size
    · by_cases h3 : proof.length =
          (decomp_incl_proof index size).1 + (decomp_incl_proof index size).2
      · simp [root_from_inclusion_proof, h1, h2, h3]
      · simp [root_from_inclusion_proof, h1, h2, h3]
    · simp [root_from_inclusion_proof, h1, h2]

/-- Closed instance of the C4 theorem: at `index = 1, size = 1` the shape
error fires, and at `index = 0, size = 1` with an empty proof the chain
runs. -/
theorem inclusion_shape_error_iff_witness :
    (∃ msg, root_from_inclusion_proof toyHasher 1 1 [170] [] = .error msg)
    ∧ root_from_inclusion_proof toyHasher 0 1 [170] [] =
        .ok (chain_border_right toyHasher
          (chain_inner toyHasher [170]
            (([] : List Bytes).take (decomp_incl_proof 0 1).1) 0)
          (([] : List Bytes).drop (decomp_incl_proof 0 1).1)) :=
  ⟨(inclusion_shape_error_iff toyHasher 1 1 [170] []).1.mpr (by decide),
   (inclusion_shape_error_iff toyHasher 0 1 [170] []).2.mpr (by decide)⟩

/-- Claim C1: with `index < size`, a leaf hash of digest length and a proof
of length `inner + border` (`inner = bitLength(index XOR (size - 1))`,
`border = popcount(index >> inner)`), `root_from_inclusion_proof` returns
the digest obtained by chaining the first `inner` proof hashes into the
seed by the bits of `index` (`chain_inner`: bit 0 puts the seed left, bit 1
puts it right) and then folding the remaining border hashes as
`hash_children(h, seed)` (`chain_border_right`); and `verify_inclusion`
succeeds exactly when this derived root equals the claimed root. -/
theorem inclusion_root_recomputation (hasher : Hasher) (index size : Nat)
    (leaf_hash root : String) (proof : List String)
    (leafB rootB : Bytes) (bp : List Bytes)
    (hleaf : fromhex leaf_hash = some leafB)
    (hroot : fromhex root = some rootB)
    (hproof : fromhex_list proof = some bp)
    (hix : index < size)
    (hlen : leafB.length = hasher.size)
    (hplen : bp.length = bit_length (index ^^^ (size - 1))
      + popcount (index >>> bit_length (index ^^^ (size - 1)))) :
    root_from_inclusion_proof hasher index size leafB bp =
      .ok (chain_border_right hasher
        (chain_inner hasher leafB
          (bp.take (bit_length (index ^^^ (size - 1)))) index)
        (bp.drop (bit_length (index ^^^ (size - 1)))))
    ∧ (verify_inclusion hasher index size leaf_hash proof root = .success
      ↔ chain_border_right hasher
          (chain_inner hasher leafB
            (bp.take (bit_length (index ^^^ (size - 1)))) index)
          (bp.drop (bit_length (index ^^^ (size - 1)))) = rootB) := by
  have h1 : ¬ size ≤ index := by omega
  have hok : root_from_inclusion_proof hasher index size leafB bp =
      .ok (chain_border_right hasher
        (chain_inner hasher leafB
          (bp.take (bit_length (index ^^^ (size - 1)))) index)
        (bp.drop (bit_length (index ^^^ (size - 1))))) := by
    simp [root_from_inclusion_proof, h1, hlen, decomp_incl_proof,
      inner_proof_size, hplen]
  refine ⟨hok, ?_⟩
  simp only [verify_inclusion, hproof, hroot, hleaf, hok]
  by_cases hd : chain_border_right hasher
      (chain_inner hasher leafB
        (bp.take (bit_length (index ^^^ (size - 1)))) index)
      (bp.drop (bit_length (index ^^^ (size - 1)))) = rootB
  · simp [hd]
  · simp [hd]

/-- Closed instance of the C1 theorem: one-proof-hash tree of size 2. -/
theorem inclusion_root_recomputation_witness :
    verify_inclusion toyHasher 0 2 "aa" ["bb"] "ab" = .success := by
  have h := inclusion_root_recomputation toyHasher 0 2 "aa" "ab" ["bb"]
    [170] [171] [[187]] (by decide) (by decide) (by decide) (by decide)
    (by decide) (by decide)
  exact h.2.mpr (by decide)

/-- Main path result is the wrong-size shape error exactly when the proof
length misses `start + inner + border`. -/
lemma consistency_main_valueError_iff (hasher : Hasher) (size1 size2 : Nat)
    (bp : List Bytes) (p0 r1 r2 : Bytes) :
    consistency_main hasher size1 size2 bp p0 r1 r2 =
        ConsistencyOutcome.valueError "wrong bytearray_proof size"
      ↔ bp.length ≠
          cons_start size1 + cons_inner size1 size2 + cons_border size1 size2 := by
  by_cases hl : bp.length =
      cons_start size1 + cons_inner size1 size2 + cons_border size1 size2
  · simp only [consistency_main]
    rw [if_neg (not_not_intro hl)]
    constructor
    · intro h
      exfalso
      by_cases hh1 : cons_hash1 hasher size1 size2 bp p0 r1 ≠ r1
      · rw [if_pos hh1] at h; simp at h
      · rw [if_neg hh1] at h
        by_cases hh2 : cons_hash2 hasher size1 size2 bp p0 r1 ≠ r2
        · rw [if_pos hh2] at h; simp at h
        · rw [if_neg hh2] at h; simp at h
    · intro h; exact absurd hl h
  · simp only [consistency_main]
    rw [if_pos hl]
    simp [hl]

/-- Claim C3: in the main path (`0 < size1 < size2`, non-empty decoded
proof), `verify_consistency` computes `(inner, border)` by the same
decomposition as inclusion at index `size1 - 1`, reduces `inner` by
`shift = ntz size1`, selects seed `root1` with start 0 when
`size1 = 1 << shift` and seed `proof[0]` with start 1 otherwise, and raises
the shape error exactly when the proof length differs from
`start + inner + border`.  The first conjuncts pin the embedded quantities
to the spec formulas; the final one is the shape-error characterisation of
the entry point itself. -/
theorem consistency_decomposition_and_shape (hasher : Hasher)
    (size1 size2 : Nat) (proof : List String) (root1 root2 : String)
    (r1 r2 p0 : Bytes) (rest : List Bytes)
    (h1 : fromhex root1 = some r1) (h2 : fromhex root2 = some r2)
    (h3 : fromhex_list proof = some (p0 :: rest))
    (hpos : 0 < size1) (hlt : size1 < size2) :
    cons_inner size1 size2 =
        (decomp_incl_proof (size1 - 1) size2).1 - ntz size1
    ∧ cons_border size1 size2 = (decomp_incl_proof (size1 - 1) size2).2
    ∧ cons_seed size1 r1 p0 = (if size1 = 1 <<< ntz size1 then r1 else p0)
    ∧ cons_start size1 = (if size1 = 1 <<< ntz size1 then 0 else 1)
    ∧ (verify_consistency hasher size1 size2 proof root1 root2 =
          ConsistencyOutcome.valueError "wrong bytearray_proof size"
        ↔ (p0 :: rest).length ≠
            cons_start size1 + cons_inner size1 size2 + cons_border size1 size2) := by
  refine ⟨rfl, rfl, rfl, rfl, ?_⟩
  rw [verify_consistency_decode hasher size1 size2 proof root1 root2 r1 r2
    (p0 :: rest) h1 h2 h3,
    verify_consistency_core_main hasher size1 size2 p0 rest r1 r2 hpos hlt]
  exact consistency_main_valueError_iff hasher size1 size2 (p0 :: rest) p0 r1 r2

/-- Closed instance of the C3 theorem: a two-element proof where one
element is expected (`size1 = 1, size2 = 2`) is the shape error. -/
theorem consistency_decomposition_and_shape_witness :
    verify_consistency toyHasher 1 2 ["aa", "bb"] "11" "22" =
      ConsistencyOutcome.valueError "wrong bytearray_proof size" := by
  have h := consistency_decomposition_and_shape toyHasher 1 2 ["aa", "bb"]
    "11" "22" [17] [34] [170] [[187]] (by decide) (by decide) (by decide)
    (by decide) (by decide)
  exact h.2.2.2.2.mpr (by decide)

/-- Claim C2: in the main path with the proof length valid,
`verify_consistency` derives `hash1` by the right-only inner chain over the
bits of `mask` (skipping 0-bit positions) followed by the border fold
(`cons_hash1`), derives `hash2` by the full inner chain with the inclusion
left/right bit rule followed by the same border fold (`cons_hash2`), and
succeeds exactly when `hash1 = root1` and `hash2 = root2`; a failing
`hash1` comparison surfaces as the root-mismatch error. -/
theorem consistency_success_iff_both_roots (hasher : Hasher)
    (size1 size2 : Nat) (proof : List String) (root1 root2 : String)
    (r1 r2 p0 : Bytes) (rest : List Bytes)
    (h1 : fromhex root1 = some r1) (h2 : fromhex root2 = some r2)
    (h3 : fromhex_list proof = some (p0 :: rest))
    (hpos : 0 < size1) (hlt : size1 < size2)
    (hlen : (p0 :: rest).length =
      cons_start size1 + cons_inner size1 size2 + cons_border size1 size2) :
    (verify_consistency hasher size1 size2 proof root1 root2 = .success
      ↔ cons_hash1 hasher size1 size2 (p0 :: rest) p0 r1 = r1
        ∧ cons_hash2 hasher size1 size2 (p0 :: rest) p0 r1 = r2)
    ∧ (cons_hash1 hasher size1 size2 (p0 :: rest) p0 r1 ≠ r1 →
      verify_consistency hasher size1 size2 proof root1 root2 =
        .rootMismatch (hexlify r1)
          (hexlify (cons_hash1 hasher size1 size2 (p0 :: rest) p0 r1))) := by
  rw [verify_consistency_decode hasher size1 size2 proof root1 root2 r1 r2
    (p0 :: rest) h1 h2 h3,
    verify_consistency_core_main hasher size1 size2 p0 rest r1 r2 hpos hlt]
  by_cases hh1 : cons_hash1 hasher size1 size2 (p0 :: rest) p0 r1 = r1
  · by_cases hh2 : cons_hash2 hasher size1 size2 (p0 :: rest) p0 r1 = r2
    · simp [consistency_main, hlen, hh1, hh2]
    · simp [consistency_main, hlen, hh1, hh2]
  · simp [consistency_main, hlen, hh1]

/-- Closed instance of the C2 theorem: the honest one-leaf-append scenario
succeeds because both derived hashes match the claimed roots. -/
theorem consistency_success_iff_both_roots_witness :
    verify_consistency toyHasher 1 2 ["22"] "11"
      (hexlify (toyHasher.hash_children [17] [34])) = .success := by
  have h := consistency_success_iff_both_roots toyHasher 1 2 ["22"] "11"
    (hexlify (toyHasher.hash_children [17] [34]))
    [17] (toyHasher.hash_children [17] [34]) [34] [] (by decide) (by decide)
    (by decide) (by decide) (by decide) (by decide)
  exact h.1.mpr ⟨by decide, by decide⟩

/-- Claim C5: the terminal edge cases of `verify_consistency`, decided in
source order — `size2 < size1` is a shape error; `size1 == size2` demands
an empty proof (else shape error) and then succeeds exactly when the two
decoded roots are byte-for-byte equal, a difference raising the
root-mismatch error; `size1 == 0` (with `size2 > size1`) demands an empty
proof and succeeds trivially; and in the remaining case
`0 < size1 < size2` an empty proof is a shape error. -/
theorem consistency_edge_cases (hasher : Hasher) (size1 size2 : Nat)
    (proof : List String) (root1 root2 : String) (r1 r2 : Bytes)
    (bp : List Bytes) (h1 : fromhex root1 = some r1)
    (h2 : fromhex root2 = some r2) (h3 : fromhex_list proof = some bp) :
    (size2 < size1 →
      verify_consistency hasher size1 size2 proof root1 root2 =
        .valueError "size2 < size1")
    ∧ (size1 = size2 → bp ≠ [] →
      verify_consistency hasher size1 size2 proof root1 root2 =
        .valueError "size1=size2, but bytearray_proof is not empty")
    ∧ (size1 = size2 → bp = [] →
      ((verify_consistency hasher size1 size2 proof root1 root2 = .success
          ↔ r1 = r2)
        ∧ (r1 ≠ r2 →
          verify_consistency hasher size1 size2 proof root1 root2 =
            .rootMismatch (hexlify r2) (hexlify r1))))
    ∧ (size1 = 0 → size2 ≠ 0 → bp ≠ [] →
      verify_consistency hasher size1 size2 proof root1 root2 =
        .valueError "expected empty bytearray_proof")
    ∧ (size1 = 0 → size2 ≠ 0 → bp = [] →
      verify_consistency hasher size1 size2 proof root1 root2 = .success)
    ∧ (0 < size1 → size1 < size2 → bp = [] →
      verify_consistency hasher size1 size2 proof root1 root2 =
        .valueError "empty bytearray_proof") := by
  rw [verify_consistency_decode hasher size1 size2 proof root1 root2 r1 r2
    bp h1 h2 h3]
  refine ⟨?_, ?_, ?_, ?_, ?_, ?_⟩
  · intro h
    simp [verify_consistency_core, h]
  · intro he hbp
    have : ¬ size2 < size1 := by omega
    simp [verify_consistency_core, this, he, hbp]
  · intro he hbp
    subst hbp
    have hns : ¬ size2 < size1 := by omega
    constructor
    · by_cases hr : r1 = r2
      · simp [verify_consistency_core, hns, he, hr]
      · simp [verify_consistency_core, hns, he, hr]
    · intro hr
      simp [verify_consistency_core, hns, he, hr]
  · intro h0 h2' hbp
    subst h0
    have hns : ¬ size2 < 0 := by omega
    have hne : ¬ (0 : Nat) = size2 := by omega
    simp [verify_consistency_core, hns, hne, hbp]
  · intro h0 h2' hbp
    subst hbp
    subst h0
    have hns : ¬ size2 < 0 := by omega
    have hne : ¬ (0 : Nat) = size2 := by omega
    simp [verify_consistency_core, hns, hne]
  · intro hp hlt hbp
    subst hbp
    have hns : ¬ size2 < size1 := by omega
    have hne : size1 ≠ size2 := by omega
    have h0 : size1 ≠ 0 := by omega
    simp [verify_consistency_core, hns, hne, h0]

/-- Closed instance of the C5 theorem: sizes out of order, the trivial
empty-tree case, and an equal-size root mismatch. -/
theorem consistency_edge_cases_witness :
    verify_consistency toyHasher 2 1 [] "aa" "aa" =
        .valueError "size2 < size1"
    ∧ verify_consistency toyHasher 0 3 [] "aa" "bb" = .success
    ∧ verify_consistency toyHasher 2 2 [] "aa" "bb" =
        .rootMismatch (hexlify [187]) (hexlify [170]) :=
  ⟨(consistency_edge_cases toyHasher 2 1 [] "aa" "aa" [170] [170] []
      (by decide) (by decide) (by decide)).1 (by decide),
   (consistency_edge_cases toyHasher 0 3 [] "aa" "bb" [170] [187] []
      (by decide) (by decide) (by decide)).2.2.2.2.1 (by decide) (by decide) rfl,
   ((consistency_edge_cases toyHasher 2 2 [] "aa" "bb" [170] [187] []
      (by decide) (by decide) (by decide)).2.2.1 rfl rfl).2 (by decide)⟩

/-- Claim C9: for every hasher and byte-valued digests `H1`, `H2` of the
hasher's digest size, the consistency verification
`size1 = 1, size2 = 2, proof = [H2], root1 = H1,
root2 = hashChildren(H1, H2)` succeeds: no shape error fires and both root
comparisons hold. -/
theorem consistency_single_leaf_append (hasher : Hasher) (H1 H2 : Bytes)
    (hb1 : IsByteList H1) (hb2 : IsByteList H2)
    (hbc : IsByteList (hasher.hash_children H1 H2))
    (hl1 : H1.length = hasher.size) (hl2 : H2.length = hasher.size) :
    verify_consistency hasher 1 2 [hexlify H2] (hexlify H1)
      (hexlify (hasher.hash_children H1 H2)) = .success := by
  have d1 : fromhex (hexlify H1) = some H1 := fromhex_hexlify H1 hb1
  have d2 : fromhex (hexlify (hasher.hash_children H1 H2)) =
      some (hasher.hash_children H1 H2) := fromhex_hexlify _ hbc
  have d3 : fromhex_list [hexlify H2] = some [H2] := by
    simp [fromhex_list, fromhex_hexlify H2 hb2]
  rw [verify_consistency_decode hasher 1 2 [hexlify H2] (hexlify H1)
    (hexlify (hasher.hash_children H1 H2)) H1 (hasher.hash_children H1 H2)
    [H2] d1 d2 d3,
    verify_consistency_core_main hasher 1 2 H2 [] H1
    (hasher.hash_children H1 H2) (by omega) (by omega)]
  have hsh : cons_shift 1 = 0 := rfl
  have hst : cons_start 1 = 0 := rfl
  have hin : cons_inner 1 2 = 1 := rfl
  have hbo : cons_border 1 2 = 0 := rfl
  have hh1 : cons_hash1 hasher 1 2 [H2] H2 H1 = H1 := rfl
  have hh2 : cons_hash2 hasher 1 2 [H2] H2 H1 = hasher.hash_children H1 H2 := rfl
  simp only [consistency_main, hst, hin, hbo, hh1, hh2]
  norm_num

/-- Closed instance of the C9 theorem at the concrete one-byte hasher. -/
theorem consistency_single_leaf_append_witness :
    verify_consistency toyHasher 1 2 [hexlify [34]] (hexlify [17])
      (hexlify (toyHasher.hash_children [17] [34])) = .success :=
  consistency_single_leaf_append toyHasher [17] [34] (by decide) (by decide)
    (by decide) (by decide) (by decide)

/-- Claim C7: a root hash that is not valid hex is rejected before any hash
chaining, distinctly from a root mismatch: `verify_consistency` takes its
caught-decode-failure path (the printed invalid-root report and early
return, `invalidRoots`) whenever `root1` or `root2` fails to decode, and
`verify_inclusion` propagates the uncaught decode `ValueError`
(`decodeError`) whenever its root fails to decode; neither outcome is the
success or the root-mismatch one. -/
theorem invalid_root_hex_rejected :
    (∀ (hasher : Hasher) (size1 size2 : Nat) (proof : List String)
      (root1 root2 : String),
      fromhex root1 = none ∨ fromhex root2 = none →
      verify_consistency hasher size1 size2 proof root1 root2 = .invalidRoots)
    ∧ (∀ (hasher : Hasher) (index size : Nat) (leaf_hash : String)
      (proof : List String) (root : String),
      fromhex root = none →
      verify_inclusion hasher index size leaf_hash proof root = .decodeError)
    ∧ (∀ e c, ConsistencyOutcome.invalidRoots ≠ .rootMismatch e c)
    ∧ ConsistencyOutcome.invalidRoots ≠ .success
    ∧ InclusionOutcome.decodeError ≠ .success := by
  refine ⟨?_, ?_, by intro e c; simp, by simp, by simp⟩
  · intro hasher size1 size2 proof root1 root2 h
    rcases h with h | h
    · simp [verify_consistency, h]
    · cases hr1 : fromhex root1 <;> simp [verify_consistency, h, hr1]
  · intro hasher index size leaf_hash proof root h
    cases hp : fromhex_list proof <;> simp [verify_inclusion, h, hp]

/-- Closed instance of the C7 theorem on malformed root strings. -/
theorem invalid_root_hex_rejected_witness :
    verify_consistency toyHasher 1 2 ["aa"] "zz" "bb" = .invalidRoots
    ∧ verify_inclusion toyHasher 0 1 "aa" [] "g" = .decodeError :=
  ⟨invalid_root_hex_rejected.1 toyHasher 1 2 ["aa"] "zz" "bb"
      (Or.inl (by decide)),
   invalid_root_hex_rejected.2.1 toyHasher 0 1 "aa" [] "g" (by decide)⟩

/-- Counterexample to claim C6 as stated: at a concrete mismatching
inclusion input the outcome is the `exit()` path, terminating the process;
no root-mismatch value is delivered to the caller (the outcome type of
`verify_inclusion` has no root-mismatch constructor at all, since the
function catches `verify_match`'s exception and exits). -/
theorem inclusion_mismatch_exits_counterexample :
    verify_inclusion toyHasher 0 1 "aa" [] "bb" = .exitCall
    ∧ InclusionOutcome.exitCall ≠ .success := by
  refine ⟨rfl, by simp⟩

/-- Claim C6 as amended: the dedicated `RootMismatchError` carries both the
expected and the calculated root hex-encoded and is distinct from shape
errors, and a recomputed-root mismatch is never reported as success — but
only `verify_consistency`'s comparison against `root1` reaches the caller
as that error; a mismatch against the final claimed root (the inclusion
root, or `root2` for consistency) makes the function print a failure
message and terminate the process via `exit()`. -/
theorem root_mismatch_reporting :
    (∀ (hasher : Hasher) (size1 size2 : Nat) (proof : List String)
      (root1 root2 : String) (r1 r2 p0 : Bytes) (rest : List Bytes),
      fromhex root1 = some r1 → fromhex root2 = some r2 →
      fromhex_list proof = some (p0 :: rest) →
      0 < size1 → size1 < size2 →
      (p0 :: rest).length =
        cons_start size1 + cons_inner size1 size2 + cons_border size1 size2 →
      cons_hash1 hasher size1 size2 (p0 :: rest) p0 r1 ≠ r1 →
      verify_consistency hasher size1 size2 proof root1 root2 =
        .rootMismatch (hexlify r1)
          (hexlify (cons_hash1 hasher size1 size2 (p0 :: rest) p0 r1)))
    ∧ (∀ (hasher : Hasher) (size1 size2 : Nat) (proof : List String)
      (root1 root2 : String) (r1 r2 p0 : Bytes) (rest : List Bytes),
      fromhex root1 = some r1 → fromhex root2 = some r2 →
      fromhex_list proof = some (p0 :: rest) →
      0 < size1 → size1 < size2 →
      (p0 :: rest).length =
        cons_start size1 + cons_inner size1 size2 + cons_border size1 size2 →
      cons_hash1 hasher size1 size2 (p0 :: rest) p0 r1 = r1 →
      cons_hash2 hasher size1 size2 (p0 :: rest) p0 r1 ≠ r2 →
      verify_consistency hasher size1 size2 proof root1 root2 = .exitCall)
    ∧ (∀ (hasher : Hasher) (index size : Nat) (leaf_hash : String)
      (proof : List String) (root : String) (leafB rootB d : Bytes)
      (bp : List Bytes),
      fromhex leaf_hash = some leafB → fromhex root = some rootB →
      fromhex_list proof = some bp →
      root_from_inclusion_proof hasher index size leafB bp = .ok d →
      d ≠ rootB →
      verify_inclusion hasher index size leaf_hash proof root = .exitCall) := by
  refine ⟨?_, ?_, ?_⟩
  · intro hasher size1 size2 proof root1 root2 r1 r2 p0 rest h1 h2 h3 hpos
      hlt hlen hh1
    rw [verify_consistency_decode hasher size1 size2 proof root1 root2 r1 r2
      (p0 :: rest) h1 h2 h3,
      verify_consistency_core_main hasher size1 size2 p0 rest r1 r2 hpos hlt]
    simp only [consistency_main]
    rw [if_neg (not_not_intro hlen), if_pos hh1]
  · intro hasher size1 size2 proof root1 root2 r1 r2 p0 rest h1 h2 h3 hpos
      hlt hlen hh1 hh2
    rw [verify_consistency_decode hasher size1 size2 proof root1 root2 r1 r2
      (p0 :: rest) h1 h2 h3,
      verify_consistency_core_main hasher size1 size2 p0 rest r1 r2 hpos hlt]
    simp only [consistency_main]
    rw [if_neg (not_not_intro hlen), if_neg (not_not_intro hh1), if_pos hh2]
  · intro hasher index size leaf_hash proof root leafB rootB d bp hleaf
      hroot hproof hok hne
    simp [verify_inclusion, hleaf, hroot, hproof, hok, hne]

/-- Closed instance of the amended C6: a consistency proof whose first hash
fails to reproduce `root1` yields the root-mismatch error with both roots
hex-encoded, and a mismatching inclusion root yields the exit path. -/
theorem root_mismatch_reporting_witness :
    verify_consistency toyHasher 3 4 ["aa", "bb", "cc"] "11" "22" =
      .rootMismatch (hexlify [17])
        (hexlify (cons_hash1 toyHasher 3 4 [[170], [187], [204]] [170] [17]))
    ∧ verify_inclusion toyHasher 0 1 "cc" [] "dd" = .exitCall :=
  ⟨root_mismatch_reporting.1 toyHasher 3 4 ["aa", "bb", "cc"] "11" "22"
      [17] [34] [170] [[187], [204]] (by decide) (by decide) (by decide)
      (by decide) (by decide) (by decide) (by decide),
   root_mismatch_reporting.2.2 toyHasher 0 1 "cc" [] "dd" [204] [221] [204]
      [] (by decide) (by decide) (by decide) rfl (by decide)⟩

/-- Counterexample to claim C8 as stated: `verify_consistency` accepts a
root whose decoded length (1 byte) differs from the hasher's 32-byte digest
size and even reports success, instead of rejecting it before proof
arithmetic. -/
theorem consistency_no_root_length_check_counterexample :
    fromhex "ab" = some [171]
    ∧ ([171] : Bytes).length ≠ wideHasher.size
    ∧ verify_consistency wideHasher 3 3 [] "ab" "ab" = .success := by
  refine ⟨rfl, by decide, rfl⟩

/-- Claim C8 as amended: `verify_inclusion` does validate the supplied leaf
hash length against `digestSize()` before any chaining (the check sits
before the chains in `root_from_inclusion_proof`), but `verify_consistency`
performs no digest-length validation at all on `root1` or `root2`: any byte
string a hex string decodes to is accepted, e.g. equal roots of any length
verify for `size1 = size2`. -/
theorem digest_length_validation :
    (∀ (hasher : Hasher) (index size : Nat) (leafB : Bytes)
      (bp : List Bytes),
      index < size → leafB.length ≠ hasher.size →
      root_from_inclusion_proof hasher index size leafB bp =
        .error "leaf_hash has unexpected size")
    ∧ (∀ (hasher : Hasher) (index size : Nat) (leaf_hash : String)
      (proof : List String) (root : String) (leafB rootB : Bytes)
      (bp : List Bytes),
      fromhex leaf_hash = some leafB → fromhex root = some rootB →
      fromhex_list proof = some bp →
      index < size → leafB.length ≠ hasher.size →
      verify_inclusion hasher index size leaf_hash proof root =
        .valueError "leaf_hash has unexpected size")
    ∧ (∀ (hasher : Hasher) (size : Nat) (root : String) (rootB : Bytes),
      fromhex root = some rootB →
      verify_consistency hasher size size [] root root = .success) := by
  refine ⟨?_, ?_, ?_⟩
  · intro hasher index size leafB bp hix hlen
    have h1 : ¬ size ≤ index := by omega
    simp [root_from_inclusion_proof, h1, hlen]
  · intro hasher index size leaf_hash proof root leafB rootB bp hleaf hroot
      hproof hix hlen
    have h1 : ¬ size ≤ index := by omega
    have herr : root_from_inclusion_proof hasher index size leafB bp =
        .error "leaf_hash has unexpected size" := by
      simp [root_from_inclusion_proof, h1, hlen]
    simp [verify_inclusion, hleaf, hroot, hproof, herr]
  · intro hasher size root rootB hroot
    rw [verify_consistency_decode hasher size size [] root root rootB rootB
      [] hroot hroot rfl]
    have hns : ¬ size < size := by omega
    simp [verify_consistency_core, hns]

/-- Closed instance of the amended C8: the leaf-length check fires for a
two-byte leaf against the one-byte digest hasher, and a 32-byte-digest
hasher accepts a one-byte root pair for equal sizes. -/
theorem digest_length_validation_witness :
    verify_inclusion toyHasher 0 1 "aabb" [] "cc" =
        .valueError "leaf_hash has unexpected size"
    ∧ verify_consistency wideHasher 5 5 [] "ab" "ab" = .success :=
  ⟨digest_length_validation.2.1 toyHasher 0 1 "aabb" [] "cc" [170, 187]
      [204] [] (by decide) (by decide) (by decide) (by decide) (by decide),
   digest_length_validation.2.2 wideHasher 5 "ab" [171] (by decide)⟩

/-- Congruence of the right-only inner chain: two proof slices of equal
length that agree at every position whose mask bit (offset by the running
counter `j`) is 1 chain to the same seed, since 0-bit positions are
skipped. -/
lemma chain_inner_right_go_congr (hasher : Hasher) (p1 : List Bytes) :
    ∀ (p2 : List Bytes) (seed : Bytes) (mask j : Nat),
      p1.length = p2.length →
      (∀ i, i < p1.length → (mask >>> (j + i)) &&& 1 = 1 → p1[i]? = p2[i]?) →
      chain_inner_right_go hasher seed p1 mask j =
        chain_inner_right_go hasher seed p2 mask j := by
  induction p1 with
  | nil =>
    intro p2 seed mask j hlen hag
    cases p2 with
    | nil => rfl
    | cons b p2 => simp at hlen
  | cons a p1 ih =>
    intro p2 seed mask j hlen hag
    cases p2 with
    | nil => simp at hlen
    | cons b p2 =>
      simp only [chain_inner_right_go]
      have hseed :
          (if (mask >>> j) &&& 1 = 1 then hasher.hash_children a seed
            else seed)
          = (if (mask >>> j) &&& 1 = 1 then hasher.hash_children b seed
            else seed) := by
        by_cases hb : (mask >>> j) &&& 1 = 1
        · have h0 := hag 0 (by simp) (by simpa using hb)
          simp only [List.getElem?_cons_zero, Option.some.injEq] at h0
          rw [if_pos hb, if_pos hb, h0]
        · rw [if_neg hb, if_neg hb]
      rw [hseed]
      apply ih
      · simpa using hlen
      · intro i hi hbit
        have he : j + 1 + i = j + (i + 1) := by omega
        have := hag (i + 1) (by simpa using Nat.succ_lt_succ hi)
          (by rw [he] at hbit; exact hbit)
        simpa using this

/-- Claim C10: the result of `chain_inner_right` — and hence the `hash1`
value `verify_consistency` derives and compares against `root1` — does not
depend on proof elements at inner positions whose `mask` bit is 0: two runs
whose inputs differ only at such positions produce identical results.  The
full inner chain (`chain_inner`, feeding `hash2`) does depend on those
positions, witnessed by a concrete pair of runs. -/
theorem chain_inner_right_mask_independence :
    (∀ (hasher : Hasher) (seed : Bytes) (mask : Nat) (p1 p2 : List Bytes),
      p1.length = p2.length →
      (∀ i, i < p1.length → (mask >>> i) &&& 1 = 1 → p1[i]? = p2[i]?) →
      chain_inner_right hasher seed p1 mask =
        chain_inner_right hasher seed p2 mask)
    ∧ (∀ (hasher : Hasher) (size1 size2 : Nat) (bp1 bp2 : List Bytes)
      (p0 r1 : Bytes),
      (cons_tail size1 bp1).length = (cons_tail size1 bp2).length →
      (cons_tail size1 bp1).drop (cons_inner size1 size2) =
        (cons_tail size1 bp2).drop (cons_inner size1 size2) →
      (∀ i, i < ((cons_tail size1 bp1).take (cons_inner size1 size2)).length →
        (cons_mask size1 >>> i) &&& 1 = 1 →
        ((cons_tail size1 bp1).take (cons_inner size1 size2))[i]? =
          ((cons_tail size1 bp2).take (cons_inner size1 size2))[i]?) →
      cons_hash1 hasher size1 size2 bp1 p0 r1 =
        cons_hash1 hasher size1 size2 bp2 p0 r1)
    ∧ (∃ (hasher : Hasher) (seed : Bytes) (mask : Nat) (p1 p2 : List Bytes),
      p1.length = p2.length
      ∧ (∀ i, i < p1.length → (mask >>> i) &&& 1 = 1 → p1[i]? = p2[i]?)
      ∧ chain_inner hasher seed p1 mask ≠ chain_inner hasher seed p2 mask) := by
  have main : ∀ (hasher : Hasher) (seed : Bytes) (mask : Nat)
      (p1 p2 : List Bytes),
      p1.length = p2.length →
      (∀ i, i < p1.length → (mask >>> i) &&& 1 = 1 → p1[i]? = p2[i]?) →
      chain_inner_right hasher seed p1 mask =
        chain_inner_right hasher seed p2 mask := by
    intro hasher seed mask p1 p2 hlen hag
    exact chain_inner_right_go_congr hasher p1 p2 seed mask 0 hlen
      (by intro i hi hbit; exact hag i hi (by simpa using hbit))
  refine ⟨main, ?_, ?_⟩
  · intro hasher size1 size2 bp1 bp2 p0 r1 hlen hdrop hag
    unfold cons_hash1
    rw [hdrop, main hasher (cons_seed size1 r1 p0) (cons_mask size1)
      ((cons_tail size1 bp1).take (cons_inner size1 size2))
      ((cons_tail size1 bp2).take (cons_inner size1 size2))
      (by simp [hlen]) hag]
  · exact ⟨toyHasher, [0], 0, [[1]], [[2]], by decide,
      by intro i hi hbit; simp at hbit, by decide⟩

/-- Closed instance of the C10 theorem: with `mask = 2`, position 0 is
skipped, so runs differing only there produce the same right-only chain. -/
theorem chain_inner_right_mask_independence_witness :
    chain_inner_right toyHasher [5] [[1], [9]] 2 =
      chain_inner_right toyHasher [5] [[2], [9]] 2 :=
  chain_inner_right_mask_independence.1 toyHasher [5] 2 [[1], [9]] [[2], [9]]
    (by decide) (by decide)

end MerkleProof
